import Mathlib

set_option allowUnsafeReducibility true in
attribute [semireducible] Rat.mul Rat.add Rat.inv Rat.sub Rat.div

/-!
Shallow embedding of the BabylonPiles storage service
(`storage/storage_service.py`) and verification of the frozen claims
about it.

Modelling conventions:
- Python dicts (`self.drives`, `self.chunks`, `self.migrations`,
  `self.file_allocations`, and the on-disk files of chunk bytes) are
  modelled as insertion-ordered association lists, which is exactly the
  iteration/ordering semantics of Python 3.7+ dicts.  `dictInsert`
  mirrors `d[k] = v`: replace in place if the key is present, else
  append.
- Machine integers are `Int` (Python ints are unbounded).
- Python float arithmetic in the drive score is modelled over `ℚ`; every
  concrete computation appearing in a theorem below is exact in both
  binary floating point and `ℚ` (the operands are identical expression
  trees, so equalities/comparisons agree).
- Wall-clock strings (`datetime.now().isoformat()`) and generated UUIDs
  are passed in as explicit parameters (`now`, `migration_id`).
- The `while remaining_size > 0` loop of `allocate_file` is given fuel
  `file_size.toNat`; with a positive configured chunk size each
  iteration decreases `remaining` by at least one, so the fuel is never
  exhausted on the executions the claims are about.  `LoopResult.fuelOut`
  marks the executions on which the Python loop would not terminate
  (non-positive configured chunk size with positive remaining size).
-/

namespace BabylonPiles

/-- Mirror of the pydantic model `DriveInfo`. -/
structure DriveInfo where
  id : String
  path : String
  total_space : Int
  free_space : Int
  used_space : Int
  status : String
  health : String
  mount_point : String
  file_system : String
deriving DecidableEq, Repr

/-- Mirror of the pydantic model `ChunkInfo`. -/
structure ChunkInfo where
  id : String
  file_id : String
  drive_id : String
  path : String
  size : Int
  checksum : String
  created_at : String
  status : String
deriving DecidableEq, Repr

/-- Mirror of the pydantic model `MigrationTask`.  `progress` is a float
in the source; only the exact values 0.0 and 100.0 ever occur, so `ℚ`
is a faithful carrier. -/
structure MigrationTask where
  id : String
  chunk_id : String
  source_drive : String
  target_drive : String
  status : String
  progress : ℚ
  started_at : String
  completed_at : Option String
deriving DecidableEq, Repr

/-- Mirror of the plain dict `{"id", "drive_id", "path", "size"}` that
`allocate_file` appends to the allocation's `chunks` list. -/
structure ChunkRef where
  id : String
  drive_id : String
  path : String
  size : Int
deriving DecidableEq, Repr

/-- Mirror of the pydantic model `StorageAllocation`. -/
structure StorageAllocation where
  file_id : String
  file_size : Int
  chunks : List ChunkRef
  status : String
deriving DecidableEq, Repr

/-- In-memory state of `StorageManager`: the four collections plus the
configuration read from the environment (`CHUNK_SIZE`, `MAX_DRIVES`). -/
structure SMState where
  drives : List DriveInfo
  chunks : List ChunkInfo
  migrations : List MigrationTask
  file_allocations : List StorageAllocation
  chunk_size : Int
  max_drives : Nat
deriving DecidableEq, Repr

/-- Python dict assignment `d[keyf v] = v`: replace the first entry with
the same key in place, otherwise append at the end. -/
def dictInsert (keyf : α → String) (v : α) : List α → List α
  | [] => [v]
  | x :: xs => if keyf x == keyf v then v :: xs else x :: dictInsert keyf v xs

/-- Python dict lookup by key, as the first list entry with that key. -/
def dictFind? (keyf : α → String) (k : String) (l : List α) : Option α :=
  l.find? (fun x => keyf x == k)

/-- In-place mutation of the (unique) entry satisfying `p`, mirroring a
Python attribute update on an object stored in a dict. -/
def updateFirst (p : α → Bool) (f : α → α) : List α → List α
  | [] => []
  | x :: xs => if p x then f x :: xs else x :: updateFirst p f xs

/-- Python `del d[k]`: drop the entry with key `k`. -/
def dictErase (keyf : α → String) (k : String) (l : List α) : List α :=
  l.filter (fun x => !(keyf x == k))

/-- Placeholder drive returned by `getDrive` on a missing key.  The
Python source indexes `self.drives[drive_id]` directly, which can only
be reached with a present key at every call site modelled below. -/
def noDrive : DriveInfo :=
  ⟨"", "", 0, 0, 0, "", "", "", ""⟩

/-- Python `self.drives[drive_id]` (the key is present at every use). -/
def getDrive (drives : List DriveInfo) (i : String) : DriveInfo :=
  (dictFind? (fun d => d.id) i drives).getD noDrive

/-- Number of chunk records currently placed on drive `i`
(`sum(1 for chunk in self.chunks.values() if chunk.drive_id == drive_id)`). -/
def chunksOn (chunks : List ChunkInfo) (i : String) : Nat :=
  (chunks.filter (fun c => c.drive_id == i)).length

/-- Body of the scoring loop of `find_best_drive_for_chunk`:
`score = free_ratio*0.6 + load_score*0.3 - min(chunk_count*0.01, 0.3)`. -/
def driveScore (chunks : List ChunkInfo) (d : DriveInfo) : ℚ :=
  let free_ratio : ℚ := (d.free_space : ℚ) / (d.total_space : ℚ)
  let load_score : ℚ := 1 - (d.used_space : ℚ) / (d.total_space : ℚ)
  let chunk_penalty : ℚ := min ((chunksOn chunks d.id : ℚ) * (1 / 100)) (3 / 10)
  free_ratio * (6 / 10) + load_score * (3 / 10) - chunk_penalty

/-- Eligibility filter of `find_best_drive_for_chunk`:
`drive.status == "active" and drive.free_space >= chunk_size`. -/
def eligible (chunk_size : Int) (d : DriveInfo) : Bool :=
  d.status == "active" && decide (chunk_size ≤ d.free_space)

/-- First element of maximal score.  The source sorts the candidate list
with `candidates.sort(key=lambda x: x[1], reverse=True)` — a stable sort —
and takes `candidates[0]`, which is exactly the earliest candidate
attaining the maximal score. -/
def bestOf : List (String × ℚ) → Option (String × ℚ)
  | [] => none
  | c :: cs =>
    match bestOf cs with
    | none => some c
    | some b => if c.2 < b.2 then some b else some c

/-- Mirror of `StorageManager.find_best_drive_for_chunk`. -/
def find_best_drive_for_chunk (drives : List DriveInfo) (chunks : List ChunkInfo)
    (chunk_size : Int) : Option String :=
  let candidates := (drives.filter (eligible chunk_size)).map
    (fun d => (d.id, driveScore chunks d))
  (bestOf candidates).map (fun c => c.1)

/-- Result of one pass of the `while remaining_size > 0` loop body of
`allocate_file`.  `noSpace` carries the (partially mutated) manager
state at the moment the 507 exception is raised; `fuelOut` marks runs on
which the Python loop would never terminate (only possible when the
configured chunk size is non-positive). -/
inductive LoopResult where
  | done (s : SMState) (chunks : List ChunkRef)
  | noSpace (s : SMState)
  | fuelOut
deriving DecidableEq, Repr

/-- State carried by a `LoopResult`, with a default for `fuelOut`. -/
def LoopResult.state (dflt : SMState) : LoopResult → SMState
  | .done s _ => s
  | .noSpace s => s
  | .fuelOut => dflt

/-- The `while remaining_size > 0` loop of `StorageManager.allocate_file`.
Each iteration: `chunk_size = min(self.chunk_size, remaining_size)`,
pick the best drive (507 on `None`), record the chunk, debit the drive,
append the chunk ref, advance. -/
def allocLoop (now file_id : String) : Nat → SMState → Int → Nat → List ChunkRef → LoopResult
  | fuel, s, remaining, n, acc =>
    if remaining ≤ 0 then .done s acc
    else
      match fuel with
      | 0 => .fuelOut
      | fuel' + 1 =>
        let c := min s.chunk_size remaining
        match find_best_drive_for_chunk s.drives s.chunks c with
        | none => .noSpace s
        | some drive_id =>
          let chunk_id := file_id ++ "_chunk_" ++ toString n
          let chunk_path := (getDrive s.drives drive_id).path ++ "/chunks/" ++ chunk_id
          let chunk : ChunkInfo :=
            ⟨chunk_id, file_id, drive_id, chunk_path, c, "", now, "allocated"⟩
          let cref : ChunkRef := ⟨chunk_id, drive_id, chunk_path, c⟩
          let s' : SMState :=
            { s with
              chunks := dictInsert (fun ch => ch.id) chunk s.chunks,
              drives := updateFirst (fun d => d.id == drive_id)
                (fun d => { d with
                  free_space := d.free_space - c,
                  used_space := d.used_space + c }) s.drives }
          allocLoop now file_id fuel' s' (remaining - c) (n + 1) (acc ++ [cref])

/-- Outcome of `StorageManager.allocate_file`: a `StorageAllocation`
(state updated) or the 507 `Insufficient storage space` exception, which
escapes with whatever mutations the loop already made. -/
inductive AllocResult where
  | ok (s : SMState) (alloc : StorageAllocation)
  | insufficient (s : SMState)
  | outOfFuel
deriving DecidableEq, Repr

/-- Manager state after an `allocate_file` call, with a default for the
`outOfFuel` artifact. -/
def AllocResult.state (r : AllocResult) (dflt : SMState) : SMState :=
  match r with
  | .ok s _ => s
  | .insufficient s => s
  | .outOfFuel => dflt

/-- Allocation returned by a successful `allocate_file` call. -/
def AllocResult.alloc? : AllocResult → Option StorageAllocation
  | .ok _ a => some a
  | _ => none

/-- Drive ids of the chunks of a successful allocation, in order. -/
def AllocResult.chunkDrives : AllocResult → Option (List String)
  | .ok _ a => some (a.chunks.map (fun c => c.drive_id))
  | _ => none

/-- Mirror of `StorageManager.allocate_file`.  `now` stands for
`datetime.now().isoformat()`. -/
def allocate_file (now : String) (s : SMState) (file_size : Int) (file_id : String) :
    AllocResult :=
  match allocLoop now file_id file_size.toNat s file_size 0 [] with
  | .done s' chunks =>
    let alloc : StorageAllocation := ⟨file_id, file_size, chunks, "allocated"⟩
    .ok { s' with
          file_allocations := dictInsert (fun a => a.file_id) alloc s'.file_allocations }
      alloc
  | .noSpace s' => .insufficient s'
  | .fuelOut => .outOfFuel

/-- Outcome of `StorageManager.migrate_chunk`: the created task (state
updated), or one of the `HTTPException`s raised before any mutation. -/
inductive MigrateResult where
  | ok (s : SMState) (task : MigrationTask)
  | notFound (detail : String)
  | conflict (detail : String)
  | insufficient (detail : String)
deriving DecidableEq, Repr

/-- Tell whether a `migrate_chunk` call succeeded. -/
def MigrateResult.isOk : MigrateResult → Bool
  | .ok _ _ => true
  | _ => false

/-- Manager state after a `migrate_chunk` call (unchanged on error). -/
def MigrateResult.state (r : MigrateResult) (dflt : SMState) : SMState :=
  match r with
  | .ok s _ => s
  | _ => dflt

/-- Mirror of `StorageManager.migrate_chunk`.  `migration_id` stands for
`str(uuid.uuid4())` and `now` for `datetime.now().isoformat()`.  The
validations run in source order: chunk exists (404), target drive
exists (404), source differs from target (400), target has space (507);
then the `queued` task is recorded.  The background thread is modelled
separately by `perform_migration`. -/
def migrate_chunk (s : SMState) (chunk_id target_drive migration_id now : String) :
    MigrateResult :=
  match dictFind? (fun c => c.id) chunk_id s.chunks with
  | none => .notFound "Chunk not found"
  | some chunk =>
    if (dictFind? (fun d => d.id) target_drive s.drives).isSome then
      if chunk.drive_id == target_drive then
        .conflict "Source and target drives are the same"
      else if (getDrive s.drives target_drive).free_space < chunk.size then
        .insufficient "Target drive has insufficient space"
      else
        let migration : MigrationTask :=
          ⟨migration_id, chunk_id, chunk.drive_id, target_drive, "queued", 0, now, none⟩
        .ok { s with migrations := dictInsert (fun m => m.id) migration s.migrations }
          migration
    else .notFound "Target drive not found"

/-- On-disk chunk bytes, as a path-keyed association list of contents. -/
def FileStore := List (String × String)
deriving DecidableEq, Repr

/-- Python `os.path.exists`. -/
def fsExists (fs : FileStore) (p : String) : Bool :=
  (List.find? (fun e => e.1 == p) fs).isSome

/-- Content stored at a path, if any. -/
def fsRead (fs : FileStore) (p : String) : Option String :=
  (List.find? (fun e => e.1 == p) fs).map (fun e => e.2)

/-- Write (or overwrite) the content at a path, as `rsync` does. -/
def fsWrite (fs : FileStore) (p content : String) : FileStore :=
  dictInsert (fun e => e.1) (p, content) fs

/-- Python `os.remove`. -/
def fsRemove (fs : FileStore) (p : String) : FileStore :=
  List.filter (fun e => !(e.1 == p)) fs

/-- Mirror of `StorageManager._perform_migration`.  `rsyncOk` is the
outcome of the `rsync` subprocess (`returncode == 0`); `now` stands for
the `datetime.now().isoformat()` calls of this run.  The two leading
dict lookups (`self.migrations[migration_id]`,
`self.chunks[migration.chunk_id]`) cannot fail at the call sites
modelled here; a missing key would be a Python `KeyError`, modelled as
leaving everything unchanged.

Note the source-faithful order in the success branch: `chunk.path` is
reassigned to `target_path` BEFORE `os.remove(chunk.path)` runs, so the
removal targets the freshly copied bytes, not the stale source bytes. -/
def perform_migration (s : SMState) (fs : FileStore) (migration_id : String)
    (rsyncOk : Bool) (now : String) : SMState × FileStore :=
  match dictFind? (fun m => m.id) migration_id s.migrations with
  | none => (s, fs)
  | some migration =>
    match dictFind? (fun c => c.id) migration.chunk_id s.chunks with
    | none => (s, fs)
    | some chunk =>
      let s1 : SMState :=
        { s with
          migrations := updateFirst (fun m => m.id == migration_id)
            (fun m => { m with status := "migrating", started_at := now }) s.migrations }
      let target_path :=
        (getDrive s1.drives migration.target_drive).path ++ "/chunks/" ++ chunk.id
      if fsExists fs chunk.path then
        if rsyncOk then
          let content := (fsRead fs chunk.path).getD ""
          let fs1 := fsWrite fs target_path content
          let chunk1 := { chunk with drive_id := migration.target_drive, path := target_path }
          let s2 : SMState :=
            { s1 with
              chunks := updateFirst (fun c => c.id == chunk.id) (fun _ => chunk1) s1.chunks }
          let s3 : SMState :=
            { s2 with
              drives := updateFirst (fun d => d.id == migration.source_drive)
                (fun d => { d with
                  free_space := d.free_space + chunk.size,
                  used_space := d.used_space - chunk.size }) s2.drives }
          let s4 : SMState :=
            { s3 with
              drives := updateFirst (fun d => d.id == migration.target_drive)
                (fun d => { d with
                  free_space := d.free_space - chunk.size,
                  used_space := d.used_space + chunk.size }) s3.drives }
          let fs2 := fsRemove fs1 chunk1.path
          let s5 : SMState :=
            { s4 with
              migrations := updateFirst (fun m => m.id == migration_id)
                (fun m => { m with
                  status := "completed", progress := 100,
                  completed_at := some now }) s4.migrations }
          (s5, fs2)
        else
          ({ s1 with
             migrations := updateFirst (fun m => m.id == migration_id)
               (fun m => { m with status := "failed", completed_at := some now })
               s1.migrations }, fs)
      else
        ({ s1 with
           migrations := updateFirst (fun m => m.id == migration_id)
             (fun m => { m with status := "failed", completed_at := some now })
             s1.migrations }, fs)

/-- The `for chunk_info in allocation.chunks` loop of the
`DELETE /files/{file_id}` endpoint: remove the bytes, credit the drive,
drop the chunk record. -/
def deleteChunksLoop (s : SMState) (fs : FileStore) : List ChunkRef → SMState × FileStore
  | [] => (s, fs)
  | cref :: rest =>
    match dictFind? (fun c => c.id) cref.id s.chunks with
    | none => deleteChunksLoop s fs rest
    | some chunk =>
      let fs' := if fsExists fs chunk.path then fsRemove fs chunk.path else fs
      let s' : SMState :=
        { s with
          drives := updateFirst (fun d => d.id == chunk.drive_id)
            (fun d => { d with
              free_space := d.free_space + chunk.size,
              used_space := d.used_space - chunk.size }) s.drives,
          chunks := dictErase (fun c => c.id) chunk.id s.chunks }
      deleteChunksLoop s' fs' rest

/-- Mirror of the `DELETE /files/{file_id}` endpoint (`delete_file`):
404 on an unknown file id (`none`), otherwise free every chunk and drop
the allocation record. -/
def delete_file (s : SMState) (fs : FileStore) (file_id : String) :
    Option (SMState × FileStore) :=
  match dictFind? (fun a => a.file_id) file_id s.file_allocations with
  | none => none
  | some alloc =>
    let sf := deleteChunksLoop s fs alloc.chunks
    some ({ sf.1 with
           file_allocations := dictErase (fun a => a.file_id) file_id sf.1.file_allocations },
      sf.2)

/-- Manager state after a `delete_file` call (unchanged on 404). -/
def deleteState (s : SMState) (fs : FileStore) (file_id : String) : SMState :=
  match delete_file s fs file_id with
  | some (s', _) => s'
  | none => s

/-- Environment visible to one iteration of `scan_drives`: whether
`/mnt/hdd{i}` exists, `shutil.disk_usage`, `os.access(..., W_OK)`,
`check_drive_health`, and `get_mount_info`. -/
structure MountProbe where
  present : Bool
  total : Int
  used : Int
  free : Int
  writable : Bool
  health : String
  mount_point : String
  file_system : String
deriving DecidableEq, Repr

/-- Drive id `f"hdd{i}"`. -/
def hddId (i : Nat) : String := "hdd" ++ toString i

/-- Mount path `f"/mnt/hdd{i}"`. -/
def mountPath (i : Nat) : String := "/mnt/hdd" ++ toString i

/-- The `DriveInfo` record `scan_drives` builds for mount point `i`. -/
def probeDrive (env : Nat → MountProbe) (i : Nat) : DriveInfo :=
  let p := env i
  ⟨hddId i, mountPath i, p.total, p.free, p.used,
    if p.writable then "active" else "readonly",
    p.health, p.mount_point, p.file_system⟩

/-- One iteration of the scan loop: upsert the measured drive when the
mount point is present, otherwise leave the registry alone. -/
def scanDrive (env : Nat → MountProbe) (i : Nat) (ds : List DriveInfo) : List DriveInfo :=
  if (env i).present then dictInsert (fun d => d.id) (probeDrive env i) ds else ds

/-- The index list `range(1, self.max_drives + 1)`. -/
def range1 (n : Nat) : List Nat := (List.range n).map (fun i => i + 1)

/-- The scan loop over the candidate mount indices. -/
def scanFold (env : Nat → MountProbe) (is : List Nat) (ds : List DriveInfo) :
    List DriveInfo :=
  is.foldl (fun a i => scanDrive env i a) ds

/-- Mirror of `StorageManager.scan_drives`: for `i` in
`1..max_drives`, probe `/mnt/hdd{i}` and upsert the result.  Only the
drive registry is touched. -/
def scan_drives (env : Nat → MountProbe) (s : SMState) : SMState :=
  { s with drives := scanFold env (range1 s.max_drives) s.drives }

/-- Sum of the chunk sizes of an allocation
(`sum(chunk.size for chunk in chunks)`). -/
def sumSizes (l : List ChunkRef) : Int :=
  (l.map (fun c => c.size)).sum

/-- Balance predicate of the spec's Drive invariant,
`free_space + used_space == total_space`, over a drive registry. -/
def drivesBalanced (ds : List DriveInfo) : Bool :=
  ds.all (fun d => d.free_space + d.used_space == d.total_space)

/-- Number of non-terminal (queued or migrating) migration tasks that
reference the given chunk. -/
def nonTerminalFor (s : SMState) (cid : String) : Nat :=
  (s.migrations.filter
    (fun m => m.chunk_id == cid && (m.status == "queued" || m.status == "migrating"))).length

/-- One gibibyte, the unit of the spec's concrete drive examples. -/
def GiB : Int := 1073741824

/-- Drive A of the spec's scoring example: free 10 GB of 100 GB, no chunks. -/
def driveA : DriveInfo :=
  ⟨"A", "/mnt/A", 100 * GiB, 10 * GiB, 90 * GiB, "active", "healthy", "/mnt/A", "ext4"⟩

/-- Drive B of the spec's scoring example: free 5 GB of 50 GB, no chunks. -/
def driveB : DriveInfo :=
  ⟨"B", "/mnt/B", 50 * GiB, 5 * GiB, 45 * GiB, "active", "healthy", "/mnt/B", "ext4"⟩

/-- Registry holding A then B (A registered first), chunk size 4 GB. -/
def stAB : SMState := ⟨[driveA, driveB], [], [], [], 4 * GiB, 10⟩

/-- Registry holding B then A (B registered first), chunk size 4 GB. -/
def stBA : SMState := ⟨[driveB, driveA], [], [], [], 4 * GiB, 10⟩

/-- Drive A after the first 4 GB chunk of the 8 GB allocation is reserved. -/
def driveAmid : DriveInfo :=
  ⟨"A", "/mnt/A", 100 * GiB, 6 * GiB, 94 * GiB, "active", "healthy", "/mnt/A", "ext4"⟩

/-- Drive B after the second 4 GB chunk of the 8 GB allocation is reserved. -/
def driveBend : DriveInfo :=
  ⟨"B", "/mnt/B", 50 * GiB, 1 * GiB, 49 * GiB, "active", "healthy", "/mnt/B", "ext4"⟩

/-- First chunk of the 8 GB allocation, placed on drive A. -/
def chunkF0 : ChunkInfo :=
  ⟨"f_chunk_0", "f", "A", "/mnt/A/chunks/f_chunk_0", 4 * GiB, "", "t0", "allocated"⟩

/-- Second chunk of the 8 GB allocation, placed on drive B. -/
def chunkF1 : ChunkInfo :=
  ⟨"f_chunk_1", "f", "B", "/mnt/B/chunks/f_chunk_1", 4 * GiB, "", "t0", "allocated"⟩

/-- The allocation record produced by `allocate(8GB, "f")` against `stAB`. -/
def allocF : StorageAllocation :=
  ⟨"f", 8 * GiB,
    [⟨"f_chunk_0", "A", "/mnt/A/chunks/f_chunk_0", 4 * GiB⟩,
     ⟨"f_chunk_1", "B", "/mnt/B/chunks/f_chunk_1", 4 * GiB⟩], "allocated"⟩

/-- Manager state after `allocate(8GB, "f")` against `stAB`. -/
def stABres : SMState :=
  ⟨[driveAmid, driveBend], [chunkF0, chunkF1], [], [allocF], 4 * GiB, 10⟩

/-- Single small drive of the failing-allocation scenario: 5 free of 10. -/
def driveSmall : DriveInfo :=
  ⟨"hdd1", "/mnt/hdd1", 10, 5, 5, "active", "healthy", "/mnt/hdd1", "ext4"⟩

/-- State with only `driveSmall`, chunk size 4: `allocate(8)` reserves one
4-byte chunk and then fails on the second. -/
def stC2 : SMState := ⟨[driveSmall], [], [], [], 4, 10⟩

/-- State `allocate(8, "f")` leaves behind when it raises 507 against
`stC2`: the first chunk is still recorded and the drive still debited. -/
def stC2fail : SMState :=
  ⟨[⟨"hdd1", "/mnt/hdd1", 10, 1, 9, "active", "healthy", "/mnt/hdd1", "ext4"⟩],
   [⟨"f_chunk_0", "f", "hdd1", "/mnt/hdd1/chunks/f_chunk_0", 4, "", "t", "allocated"⟩],
   [], [], 4, 10⟩

/-- Source drive of the migration scenarios. -/
def drive1 : DriveInfo :=
  ⟨"hdd1", "/mnt/hdd1", 100, 50, 50, "active", "healthy", "/mnt/hdd1", "ext4"⟩

/-- Target drive of the migration scenarios. -/
def drive2 : DriveInfo :=
  ⟨"hdd2", "/mnt/hdd2", 100, 80, 20, "active", "healthy", "/mnt/hdd2", "ext4"⟩

/-- A 10-byte chunk of file `f0` living on `hdd1`. -/
def chunkC0 : ChunkInfo :=
  ⟨"c0", "f0", "hdd1", "/mnt/hdd1/chunks/c0", 10, "", "t0", "allocated"⟩

/-- A queued (non-terminal) migration task already referencing `c0`. -/
def taskM0 : MigrationTask :=
  ⟨"m0", "c0", "hdd1", "hdd2", "queued", 0, "t0", none⟩

/-- Migration scenario state: two drives, chunk `c0` on `hdd1`, and a
queued task `m0` for `c0`. -/
def stC3 : SMState := ⟨[drive1, drive2], [chunkC0], [taskM0], [], 4, 10⟩

/-- Allocation record owning chunk `c0`. -/
def allocF0 : StorageAllocation :=
  ⟨"f0", 10, [⟨"c0", "hdd1", "/mnt/hdd1/chunks/c0", 10⟩], "allocated"⟩

/-- Migration/deletion scenario state including the allocation record. -/
def stC4 : SMState := ⟨[drive1, drive2], [chunkC0], [taskM0], [allocF0], 4, 10⟩

/-- On-disk bytes of chunk `c0` before migration. -/
def fsC1 : FileStore := [("/mnt/hdd1/chunks/c0", "PAYLOAD")]

/-- Single roomy drive for the successful-allocation witness scenario. -/
def stW1 : SMState := ⟨[drive1], [], [], [], 4, 10⟩

/-- Allocation record produced by `allocate(4, "g")` against `stW1`. -/
def allocG : StorageAllocation :=
  ⟨"g", 4, [⟨"g_chunk_0", "hdd1", "/mnt/hdd1/chunks/g_chunk_0", 4⟩], "allocated"⟩

/-- Manager state after `allocate(4, "g")` against `stW1`. -/
def stW1res : SMState :=
  ⟨[⟨"hdd1", "/mnt/hdd1", 100, 46, 54, "active", "healthy", "/mnt/hdd1", "ext4"⟩],
   [⟨"g_chunk_0", "g", "hdd1", "/mnt/hdd1/chunks/g_chunk_0", 4, "", "t", "allocated"⟩],
   [], [allocG], 4, 10⟩

/-- Probe result of a present, writable, healthy mount. -/
def probeW : MountProbe := ⟨true, 100, 40, 60, true, "healthy", "/mnt/hdd1", "ext4"⟩

/-- Probe result of an absent mount point. -/
def probeNone : MountProbe := ⟨false, 0, 0, 0, false, "", "", ""⟩

/-- Scan environment with exactly mount 1 present. -/
def envW : Nat → MountProbe := fun i => if i == 1 then probeW else probeNone

/-- A drive record from an earlier scan whose mount has since vanished. -/
def oldDrive : DriveInfo :=
  ⟨"old", "/mnt/old", 10, 4, 6, "active", "healthy", "/mnt/old", "ext4"⟩

/-- Scan scenario state: one stale drive record, `max_drives = 2`. -/
def stC9 : SMState := ⟨[oldDrive], [], [], [], 4, 2⟩

theorem dictFind?_insert_self (keyf : α → String) (v : α) :
    ∀ l : List α, dictFind? keyf (keyf v) (dictInsert keyf v l) = some v := by
  intro l
  induction l with
  | nil => simp [dictFind?, dictInsert]
  | cons x xs ih =>
    by_cases hx : keyf x = keyf v
    · simp [dictFind?, dictInsert, hx]
    · simp only [dictInsert, beq_iff_eq, if_neg hx]
      simpa [dictFind?, hx] using ih

theorem dictFind?_insert_other (keyf : α → String) (v : α) (k : String)
    (h : keyf v ≠ k) :
    ∀ l : List α, dictFind? keyf k (dictInsert keyf v l) = dictFind? keyf k l := by
  intro l
  induction l with
  | nil => simp [dictFind?, dictInsert, h]
  | cons x xs ih =>
    by_cases hx : keyf x = keyf v
    · simp [dictFind?, dictInsert, hx, h]
    · by_cases hk : keyf x = k
      · simp [dictFind?, dictInsert, hx, hk, Ne.symm h]
      · simp only [dictInsert, beq_iff_eq, if_neg hx]
        simpa [dictFind?, hk] using ih

theorem dictInsert_of_find? (keyf : α → String) (v : α) :
    ∀ l : List α, dictFind? keyf (keyf v) l = some v → dictInsert keyf v l = l := by
  intro l
  induction l with
  | nil => simp [dictFind?]
  | cons x xs ih =>
    intro h
    by_cases hx : keyf x = keyf v
    · have hxv : x = v := by simpa [dictFind?, hx] using h
      simp [dictInsert, hx, hxv]
    · have h' : dictFind? keyf (keyf v) xs = some v := by
        simpa [dictFind?, hx] using h
      simp [dictInsert, hx, ih h']

theorem mem_key_dictInsert (keyf : α → String) (v : α) (k : String) :
    ∀ l : List α, (∃ x ∈ l, keyf x = k) →
      ∃ x ∈ dictInsert keyf v l, keyf x = k := by
  intro l
  induction l with
  | nil => simp
  | cons y ys ih =>
    intro h
    by_cases hy : keyf y = keyf v
    · rcases h with ⟨x, hx, hk⟩
      rcases List.mem_cons.mp hx with rfl | hmem
      · exact ⟨v, by simp [dictInsert, hy], by rw [← hy]; exact hk⟩
      · exact ⟨x, by simp [dictInsert, hy, hmem], hk⟩
    · rcases h with ⟨x, hx, hk⟩
      rcases List.mem_cons.mp hx with rfl | hmem
      · exact ⟨x, by simp [dictInsert, hy], hk⟩
      · rcases ih ⟨x, hmem, hk⟩ with ⟨x2, hx2, hk2⟩
        exact ⟨x2, by simp [dictInsert, hy, hx2], hk2⟩

theorem find?_updateFirst (p : α → Bool) (f : α → α)
    (hf : ∀ x, p x = true → p (f x) = true) :
    ∀ l : List α, List.find? p (updateFirst p f l) = (List.find? p l).map f := by
  intro l
  induction l with
  | nil => simp [updateFirst]
  | cons x xs ih =>
    by_cases hx : p x = true
    · simp [updateFirst, hx, List.find?_cons_of_pos, hf x hx]
    · have hx' : p x = false := by simpa using hx
      simp [updateFirst, hx', List.find?_cons_of_neg, ih]

theorem all_updateFirst (p : α → Bool) (f : α → α) (q : α → Bool)
    (hf : ∀ x, q x = true → q (f x) = true) :
    ∀ l : List α, l.all q = true → (updateFirst p f l).all q = true := by
  intro l
  induction l with
  | nil => simp [updateFirst]
  | cons x xs ih =>
    intro h
    rcases (by simpa using h : q x = true ∧ xs.all q = true) with ⟨hx, hxs⟩
    by_cases hp : p x = true
    · simpa [updateFirst, hp, hf x hx] using hxs
    · have hp' : p x = false := by simpa using hp
      simpa [updateFirst, hp', hx] using ih hxs

theorem bestOf_mem_max :
    ∀ (l : List (String × ℚ)) (b : String × ℚ), bestOf l = some b →
      b ∈ l ∧ ∀ x ∈ l, x.2 ≤ b.2 := by
  intro l
  induction l with
  | nil => simp [bestOf]
  | cons c cs ih =>
    intro b hb
    cases hcs : bestOf cs with
    | none =>
      have hb' : b = c := by
        simp only [bestOf, hcs] at hb
        exact (Option.some_inj.mp hb).symm
      subst hb'
      have hnil : cs = [] := by
        cases cs with
        | nil => rfl
        | cons y ys =>
          rw [bestOf] at hcs
          rcases h2 : bestOf ys with _ | b2 <;> rw [h2] at hcs
          · exact absurd hcs (by simp)
          · by_cases hlt : y.2 < b2.2 <;> simp [hlt] at hcs
      subst hnil
      exact ⟨by simp, by simp⟩
    | some b' =>
      rcases ih b' hcs with ⟨hmem, hmax⟩
      simp only [bestOf, hcs] at hb
      by_cases hlt : c.2 < b'.2
      · rw [if_pos hlt] at hb
        rcases Option.some_inj.mp hb with rfl
        refine ⟨List.mem_cons_of_mem _ hmem, ?_⟩
        intro x hx
        rcases List.mem_cons.mp hx with rfl | hx'
        · exact le_of_lt hlt
        · exact hmax x hx'
      · rw [if_neg hlt] at hb
        rcases Option.some_inj.mp hb with rfl
        refine ⟨List.mem_cons_self _ _, ?_⟩
        intro x hx
        rcases List.mem_cons.mp hx with rfl | hx'
        · exact le_refl _
        · exact le_trans (hmax x hx') (not_lt.mp hlt)

theorem find_best_spec (drives : List DriveInfo) (chunks : List ChunkInfo)
    (cs : Int) (i : String)
    (h : find_best_drive_for_chunk drives chunks cs = some i) :
    ∃ d ∈ drives, d.id = i ∧ eligible cs d = true ∧
      ∀ d2 ∈ drives, eligible cs d2 = true →
        driveScore chunks d2 ≤ driveScore chunks d := by
  simp only [find_best_drive_for_chunk] at h
  cases hb : bestOf ((drives.filter (eligible cs)).map
      (fun d => (d.id, driveScore chunks d))) with
  | none => rw [hb] at h; simp at h
  | some b =>
    rw [hb] at h
    rcases bestOf_mem_max _ b hb with ⟨hmem, hmax⟩
    rcases List.mem_map.mp hmem with ⟨d, hdf, hdb⟩
    rcases List.mem_filter.mp hdf with ⟨hdd, helig⟩
    have hid : d.id = i := by
      rw [← hdb] at h
      simpa using h
    refine ⟨d, hdd, hid, helig, ?_⟩
    intro d2 hd2 he2
    have hc2 : (d2.id, driveScore chunks d2) ∈
        (drives.filter (eligible cs)).map (fun d => (d.id, driveScore chunks d)) :=
      List.mem_map.mpr ⟨d2, List.mem_filter.mpr ⟨hd2, he2⟩, rfl⟩
    have hle := hmax _ hc2
    rw [← hdb] at hle
    simpa using hle

/-- Balance of the drive registries carried by a loop result. -/
def LoopResult.statesBalanced : LoopResult → Prop
  | .done s _ => drivesBalanced s.drives = true
  | .noSpace s => drivesBalanced s.drives = true
  | .fuelOut => True

/-- The allocation collection carried by a loop result. -/
def LoopResult.allocsEq (fa : List StorageAllocation) : LoopResult → Prop
  | .done s _ => s.file_allocations = fa
  | .noSpace s => s.file_allocations = fa
  | .fuelOut => True

theorem allocLoop_balanced (now fid : String) :
    ∀ (fuel : Nat) (s : SMState) (r : Int) (n : Nat) (acc : List ChunkRef),
      drivesBalanced s.drives = true →
      (allocLoop now fid fuel s r n acc).statesBalanced := by
  intro fuel
  induction fuel with
  | zero =>
    intro s r n acc h
    by_cases hr : r ≤ 0
    · simpa [allocLoop, hr, LoopResult.statesBalanced] using h
    · simp [allocLoop, hr, LoopResult.statesBalanced]
  | succ fuel ih =>
    intro s r n acc h
    by_cases hr : r ≤ 0
    · simpa [allocLoop, hr, LoopResult.statesBalanced] using h
    · rw [allocLoop]
      rw [if_neg hr]
      cases hfb : find_best_drive_for_chunk s.drives s.chunks (min s.chunk_size r) with
      | none => simpa [hfb, LoopResult.statesBalanced] using h
      | some did =>
        simp only [hfb]
        apply ih
        apply all_updateFirst _ _ _ _ _ h
        intro d hd
        have hd' : d.free_space + d.used_space = d.total_space := by
          simpa using hd
        simp only [beq_iff_eq]
        omega

theorem allocLoop_allocs (now fid : String) :
    ∀ (fuel : Nat) (s : SMState) (r : Int) (n : Nat) (acc : List ChunkRef),
      (allocLoop now fid fuel s r n acc).allocsEq s.file_allocations := by
  intro fuel
  induction fuel with
  | zero =>
    intro s r n acc
    by_cases hr : r ≤ 0
    · simp [allocLoop, hr, LoopResult.allocsEq]
    · simp [allocLoop, hr, LoopResult.allocsEq]
  | succ fuel ih =>
    intro s r n acc
    by_cases hr : r ≤ 0
    · simp [allocLoop, hr, LoopResult.allocsEq]
    · rw [allocLoop]
      rw [if_neg hr]
      cases hfb : find_best_drive_for_chunk s.drives s.chunks (min s.chunk_size r) with
      | none => simp [hfb, LoopResult.allocsEq]
      | some did =>
        simp only [hfb]
        exact ih _ _ _ _

theorem allocLoop_sum (now fid : String) :
    ∀ (fuel : Nat) (s : SMState) (r : Int) (n : Nat) (acc : List ChunkRef)
      (s' : SMState) (chunks : List ChunkRef),
      0 ≤ r → allocLoop now fid fuel s r n acc = .done s' chunks →
      sumSizes chunks = sumSizes acc + r := by
  intro fuel
  induction fuel with
  | zero =>
    intro s r n acc s' chunks h0 hdone
    by_cases hr : r ≤ 0
    · have hr0 : r = 0 := le_antisymm hr h0
      rw [allocLoop, if_pos hr] at hdone
      rcases hdone with ⟨rfl, rfl⟩
      simp [hr0]
    · rw [allocLoop, if_neg hr] at hdone
      exact absurd hdone (by simp)
  | succ fuel ih =>
    intro s r n acc s' chunks h0 hdone
    by_cases hr : r ≤ 0
    · have hr0 : r = 0 := le_antisymm hr h0
      rw [allocLoop, if_pos hr] at hdone
      rcases hdone with ⟨rfl, rfl⟩
      simp [hr0]
    · rw [allocLoop, if_neg hr] at hdone
      cases hfb : find_best_drive_for_chunk s.drives s.chunks (min s.chunk_size r) with
      | none => simp [hfb] at hdone
      | some did =>
        simp only [hfb] at hdone
        have hc : min s.chunk_size r ≤ r := min_le_right _ _
        have hrec := ih _ _ _ _ _ _ (by omega) hdone
        rw [hrec]
        simp [sumSizes]

theorem scanDrive_find_other (env : Nat → MountProbe) (i : Nat) (k : String)
    (h : hddId i ≠ k) (ds : List DriveInfo) :
    dictFind? (fun d => d.id) k (scanDrive env i ds) =
      dictFind? (fun d => d.id) k ds := by
  unfold scanDrive
  by_cases hp : (env i).present
  · rw [if_pos hp]
    exact dictFind?_insert_other (fun d => d.id) (probeDrive env i) k h ds
  · rw [if_neg hp]

theorem scanFold_find_not_mem (env : Nat → MountProbe) (k : String) :
    ∀ (is : List Nat) (ds : List DriveInfo), (∀ i ∈ is, hddId i ≠ k) →
      dictFind? (fun d => d.id) k (scanFold env is ds) =
        dictFind? (fun d => d.id) k ds := by
  intro is
  induction is with
  | nil => intro ds _; rfl
  | cons i is ih =>
    intro ds h
    rw [scanFold, List.foldl_cons]
    have := ih (scanDrive env i ds) (fun j hj => h j (List.mem_cons_of_mem _ hj))
    rw [scanFold] at this
    rw [this]
    exact scanDrive_find_other env i k (h i (List.mem_cons_self _ _)) ds

theorem scanDrive_fixed (env : Nat → MountProbe) (i : Nat) (is : List Nat)
    (h : ∀ j ∈ is, hddId j ≠ hddId i) (ds : List DriveInfo) :
    scanDrive env i (scanFold env is (scanDrive env i ds)) =
      scanFold env is (scanDrive env i ds) := by
  by_cases hp : (env i).present
  · have hkey : (fun d : DriveInfo => d.id) (probeDrive env i) = hddId i := rfl
    have hfind : dictFind? (fun d : DriveInfo => d.id) (hddId i)
        (scanFold env is (scanDrive env i ds)) = some (probeDrive env i) := by
      rw [scanFold_find_not_mem env (hddId i) is _ h]
      unfold scanDrive
      rw [if_pos hp]
      exact dictFind?_insert_self (fun d => d.id) (probeDrive env i) ds
    conv_lhs => rw [scanDrive, if_pos hp]
    exact dictInsert_of_find? _ _ _ hfind
  · conv_lhs => rw [scanDrive, if_neg hp]

theorem scanFold_idem (env : Nat → MountProbe) :
    ∀ (is : List Nat) (ds : List DriveInfo), (is.map hddId).Nodup →
      scanFold env is (scanFold env is ds) = scanFold env is ds := by
  intro is
  induction is with
  | nil => intro ds _; rfl
  | cons i is ih =>
    intro ds hnd
    have hsplit : (∀ x ∈ is, ¬ hddId x = hddId i) ∧ (List.map hddId is).Nodup := by
      simpa using hnd
    rcases hsplit with ⟨hni, hnd'⟩
    have hne : ∀ j ∈ is, hddId j ≠ hddId i := fun j hj => hni j hj
    have e1 : ∀ x : List DriveInfo,
        scanFold env (i :: is) x = scanFold env is (scanDrive env i x) := by
      intro x
      simp [scanFold]
    rw [e1, e1]
    rw [scanDrive_fixed env i is hne ds]
    exact ih _ hnd'

theorem mem_key_scanDrive (env : Nat → MountProbe) (i : Nat) (k : String)
    (ds : List DriveInfo) (h : ∃ d ∈ ds, d.id = k) :
    ∃ d ∈ scanDrive env i ds, d.id = k := by
  unfold scanDrive
  by_cases hp : (env i).present
  · rw [if_pos hp]
    exact mem_key_dictInsert _ _ _ _ h
  · rw [if_neg hp]
    exact h

theorem mem_key_scanFold (env : Nat → MountProbe) (k : String) :
    ∀ (is : List Nat) (ds : List DriveInfo), (∃ d ∈ ds, d.id = k) →
      ∃ d ∈ scanFold env is ds, d.id = k := by
  intro is
  induction is with
  | nil => intro ds h; exact h
  | cons i is ih =>
    intro ds h
    rw [scanFold, List.foldl_cons]
    exact ih _ (mem_key_scanDrive env i k ds h)

theorem allocLoop_nonpos (now fid : String) (fuel : Nat) (s : SMState) (r : Int)
    (n : Nat) (acc : List ChunkRef) (h : r ≤ 0) :
    allocLoop now fid fuel s r n acc = .done s acc := by
  cases fuel with
  | zero => rw [allocLoop, if_pos h]
  | succ fuel => rw [allocLoop, if_pos h]

theorem dictFind?_updateFirst_id (f : MigrationTask → MigrationTask)
    (hf : ∀ m, (f m).id = m.id) (k : String) :
    ∀ l : List MigrationTask,
      dictFind? (fun m => m.id) k (updateFirst (fun m => m.id == k) f l) =
        (dictFind? (fun m => m.id) k l).map f := by
  intro l
  induction l with
  | nil => rfl
  | cons x xs ih =>
    by_cases hx : x.id = k
    · simp [dictFind?, updateFirst, hx, hf]
    · simp only [updateFirst, beq_iff_eq, if_neg hx]
      have hxf : (x.id == k) = false := by simp [hx]
      simp only [dictFind?, List.find?, hxf] at ih ⊢
      exact ih

/-- C1 (code bug evidence): evaluation of a migration whose copy step
succeeds, at a concrete input.  The switch, the space bookkeeping and
the `completed` mark all happen, but `os.remove(chunk.path)` runs after
`chunk.path` was reassigned to the target path, so the code deletes the
freshly copied target bytes and leaves the stale source bytes: the file
store ends exactly where it started, the chunk record points at
`/mnt/hdd2/chunks/c0`, and no bytes exist there while the source copy
survives — the opposite of the claimed "deletes the now-stale source
bytes" and "bytes at the new target location remain". -/
theorem c1_migration_success_evaluation :
    (perform_migration stC3 fsC1 "m0" true "t1").2 = [("/mnt/hdd1/chunks/c0", "PAYLOAD")] ∧
    fsRead (perform_migration stC3 fsC1 "m0" true "t1").2 "/mnt/hdd2/chunks/c0" = none ∧
    fsRead (perform_migration stC3 fsC1 "m0" true "t1").2 "/mnt/hdd1/chunks/c0" =
      some "PAYLOAD" ∧
    dictFind? (fun c => c.id) "c0" (perform_migration stC3 fsC1 "m0" true "t1").1.chunks =
      some ⟨"c0", "f0", "hdd2", "/mnt/hdd2/chunks/c0", 10, "", "t0", "allocated"⟩ ∧
    dictFind? (fun m => m.id) "m0" (perform_migration stC3 fsC1 "m0" true "t1").1.migrations =
      some ⟨"m0", "c0", "hdd1", "hdd2", "completed", 100, "t1", some "t1"⟩ ∧
    (perform_migration stC3 fsC1 "m0" true "t1").1.drives =
      [⟨"hdd1", "/mnt/hdd1", 100, 60, 40, "active", "healthy", "/mnt/hdd1", "ext4"⟩,
       ⟨"hdd2", "/mnt/hdd2", 100, 70, 30, "active", "healthy", "/mnt/hdd2", "ext4"⟩] := by
  decide

/-- C2 (counterexample): `allocate(8, "f")` against a single active
drive with 5 free bytes and chunk size 4 fails with 507, yet the chunk
reserved in the first iteration is still recorded and the drive's
counters are still debited (free 5 → 1) — the failure is not atomic as
the claim states. -/
theorem c2_counterexample :
    allocate_file "t" stC2 8 "f" = .insufficient stC2fail ∧
    stC2fail.chunks ≠ stC2.chunks ∧
    (getDrive stC2fail.drives "hdd1").free_space = 1 ∧
    (getDrive stC2.drives "hdd1").free_space = 5 ∧
    dictFind? (fun c => c.id) "f_chunk_0" stC2fail.chunks ≠ none := by
  decide

/-- C2 (amended): when `allocate_file` fails with `InsufficientStorage`,
no `StorageAllocation` record is created for the file (the error is
raised before that point), but the failure is not atomic: chunks
already reserved during the call remain in the chunk collection and the
drives' free/used counters remain debited — there is no rollback. -/
theorem c2_insufficient_no_allocation_record :
    (∀ (now : String) (s : SMState) (fsize : Int) (fid : String) (s' : SMState),
       allocate_file now s fsize fid = .insufficient s' →
       s'.file_allocations = s.file_allocations) ∧
    allocate_file "t" stC2 8 "f" = .insufficient stC2fail ∧
    stC2fail.chunks =
      [⟨"f_chunk_0", "f", "hdd1", "/mnt/hdd1/chunks/f_chunk_0", 4, "", "t", "allocated"⟩] ∧
    stC2fail.drives =
      [⟨"hdd1", "/mnt/hdd1", 10, 1, 9, "active", "healthy", "/mnt/hdd1", "ext4"⟩] := by
  refine ⟨?_, by decide, by decide, by decide⟩
  intro now s fsize fid s' h
  unfold allocate_file at h
  cases hl : allocLoop now fid fsize.toNat s fsize 0 [] with
  | done s1 chunks =>
    rw [hl] at h
    exact absurd h (by simp)
  | noSpace s1 =>
    rw [hl] at h
    have hs : s1 = s' := by simpa using h
    subst hs
    have ha := allocLoop_allocs now fid fsize.toNat s fsize 0 []
    rw [hl] at ha
    exact ha
  | fuelOut =>
    rw [hl] at h
    exact absurd h (by simp)

/-- C2 (witness): the general no-allocation-record part of the amended
claim, applied to the concrete failing scenario. -/
theorem c2_witness : stC2fail.file_allocations = stC2.file_allocations :=
  c2_insufficient_no_allocation_record.1 "t" stC2 8 "f" stC2fail (by decide)

/-- C3 (counterexample): in a state where the queued task `m0` already
references chunk `c0`, `migrate(c0, hdd2)` does not fail with
`Conflict`: it succeeds and creates a second task, after which two
non-terminal migration tasks reference `c0`. -/
theorem c3_counterexample :
    (migrate_chunk stC3 "c0" "hdd2" "m1" "t1").isOk = true ∧
    nonTerminalFor ((migrate_chunk stC3 "c0" "hdd2" "m1" "t1").state stC3) "c0" = 2 ∧
    nonTerminalFor stC3 "c0" = 1 := by
  decide

/-- C3 (amended): `migrate_chunk` validates only that the chunk exists,
the target drive exists, the target differs from the chunk's current
drive, and the target has enough free space; it never consults the
migration collection, so whenever those four conditions hold it creates
a new `queued` task — even when a non-terminal task already references
the same chunk.  Consequently several non-terminal tasks per chunk can
coexist. -/
theorem c3_no_conflict_check (s : SMState) (chunk_id target mid now : String)
    (ch : ChunkInfo)
    (h1 : dictFind? (fun c => c.id) chunk_id s.chunks = some ch)
    (h2 : (dictFind? (fun d => d.id) target s.drives).isSome = true)
    (h3 : ch.drive_id ≠ target)
    (h4 : ch.size ≤ (getDrive s.drives target).free_space) :
    migrate_chunk s chunk_id target mid now =
      .ok { s with
            migrations := dictInsert (fun m => m.id)
              ⟨mid, chunk_id, ch.drive_id, target, "queued", 0, now, none⟩ s.migrations }
        ⟨mid, chunk_id, ch.drive_id, target, "queued", 0, now, none⟩ := by
  unfold migrate_chunk
  rw [h1]
  simp [h2, h3, not_lt.mpr h4]

/-- C3 (witness): the amended claim applied to the concrete scenario in
which a queued task for `c0` already exists: the call still succeeds
and appends a second task. -/
theorem c3_witness :
    migrate_chunk stC3 "c0" "hdd2" "m1" "t1" =
      .ok { stC3 with
            migrations := dictInsert (fun m => m.id)
              ⟨"m1", "c0", "hdd1", "hdd2", "queued", 0, "t1", none⟩ stC3.migrations }
        ⟨"m1", "c0", "hdd1", "hdd2", "queued", 0, "t1", none⟩ :=
  c3_no_conflict_check stC3 "c0" "hdd2" "m1" "t1" chunkC0 (by decide) (by decide)
    (by decide) (by decide)

theorem deleteChunksLoop_balanced :
    ∀ (crefs : List ChunkRef) (s : SMState) (fs : FileStore),
      drivesBalanced s.drives = true →
      drivesBalanced (deleteChunksLoop s fs crefs).1.drives = true := by
  intro crefs
  induction crefs with
  | nil => intro s fs h; exact h
  | cons cref rest ih =>
    intro s fs h
    rw [deleteChunksLoop]
    cases hc : dictFind? (fun c => c.id) cref.id s.chunks with
    | none => exact ih s fs h
    | some chunk =>
      simp only
      apply ih
      apply all_updateFirst _ _ _ _ _ h
      intro d hd
      have hd' : d.free_space + d.used_space = d.total_space := by simpa using hd
      simp only [beq_iff_eq]
      omega

/-- C4: each mutating operation updates a drive's `free_space` and
`used_space` by equal and opposite amounts, so the invariant
`free_space + used_space == total_space` over the registry is preserved
by `allocate_file` (including its failure path), by the migration
worker `_perform_migration` (success and failure), and by
`delete_file`. -/
theorem c4_space_invariant_preserved :
    (∀ (now : String) (s : SMState) (fsize : Int) (fid : String),
       drivesBalanced s.drives = true →
       drivesBalanced ((allocate_file now s fsize fid).state s).drives = true) ∧
    (∀ (s : SMState) (fs : FileStore) (mid : String) (rsyncOk : Bool) (now : String),
       drivesBalanced s.drives = true →
       drivesBalanced (perform_migration s fs mid rsyncOk now).1.drives = true) ∧
    (∀ (s : SMState) (fs : FileStore) (fid : String),
       drivesBalanced s.drives = true →
       drivesBalanced (deleteState s fs fid).drives = true) := by
  refine ⟨?_, ?_, ?_⟩
  · intro now s fsize fid h
    have hb := allocLoop_balanced now fid fsize.toNat s fsize 0 [] h
    cases hl : allocLoop now fid fsize.toNat s fsize 0 [] with
    | done s1 chunks =>
      rw [hl] at hb
      simp only [allocate_file, hl]
      exact hb
    | noSpace s1 =>
      rw [hl] at hb
      simp only [allocate_file, hl]
      exact hb
    | fuelOut =>
      simp only [allocate_file, hl]
      exact h
  · intro s fs mid rsyncOk now h
    cases hm : dictFind? (fun m => m.id) mid s.migrations with
    | none =>
      simp only [perform_migration, hm]
      exact h
    | some mig =>
      cases hc : dictFind? (fun c => c.id) mig.chunk_id s.chunks with
      | none =>
        simp only [perform_migration, hm, hc]
        exact h
      | some ch =>
        simp only [perform_migration, hm, hc]
        by_cases hfe : fsExists fs ch.path
        · cases rsyncOk with
          | true =>
            simp only [hfe, if_true]
            apply all_updateFirst _ _ _ ?_ _ (all_updateFirst _ _ _ ?_ _ h)
            · intro d hd
              have hd' : d.free_space + d.used_space = d.total_space := by simpa using hd
              simp only [beq_iff_eq]
              omega
            · intro d hd
              have hd' : d.free_space + d.used_space = d.total_space := by simpa using hd
              simp only [beq_iff_eq]
              omega
          | false =>
            simp only [hfe]
            simpa using h
        · have hfe' : fsExists fs ch.path = false := by simpa using hfe
          simp only [hfe']
          simpa using h
  · intro s fs fid h
    cases ha : dictFind? (fun a => a.file_id) fid s.file_allocations with
    | none =>
      simp only [deleteState, delete_file, ha]
      exact h
    | some alloc =>
      simp only [deleteState, delete_file, ha]
      exact deleteChunksLoop_balanced alloc.chunks s fs h

/-- C4 (witness): the three preservation statements applied to a
concrete balanced state. -/
theorem c4_witness :
    drivesBalanced stC4.drives = true ∧
    drivesBalanced ((allocate_file "t" stC4 5 "g").state stC4).drives = true ∧
    drivesBalanced (perform_migration stC4 fsC1 "m0" true "t1").1.drives = true ∧
    drivesBalanced (deleteState stC4 fsC1 "f0").drives = true :=
  ⟨by decide, c4_space_invariant_preserved.1 "t" stC4 5 "g" (by decide),
   c4_space_invariant_preserved.2.1 stC4 fsC1 "m0" true "t1" (by decide),
   c4_space_invariant_preserved.2.2 stC4 fsC1 "f0" (by decide)⟩

/-- C5 (counterexample): `allocate(-1, "f")` returns successfully with
an empty chunk list, so the sum of chunk sizes (0) differs from the
returned allocation's `file_size` (-1): the claim's "for every call
that returns successfully" fails on negative sizes, which the public
interface accepts. -/
theorem c5_counterexample :
    (allocate_file "t" stAB (-1) "f").alloc? = some ⟨"f", -1, [], "allocated"⟩ ∧
    sumSizes [] ≠ (-1 : Int) := by
  constructor
  · rfl
  · decide

/-- C5 (amended): for every successful `allocate_file` call with a
non-negative `file_size`, the chunk sizes of the returned allocation
sum to `file_size`; in particular `allocate(0)` always succeeds and
returns an allocation with zero chunks. -/
theorem c5_sum_of_chunks :
    (∀ (now : String) (s : SMState) (fsize : Int) (fid : String) (s' : SMState)
       (a : StorageAllocation), 0 ≤ fsize →
       allocate_file now s fsize fid = .ok s' a →
       sumSizes a.chunks = fsize ∧ a.file_size = fsize ∧
         (fsize = 0 → a.chunks = [])) ∧
    (∀ (now : String) (s : SMState) (fid : String),
       (allocate_file now s 0 fid).alloc? = some ⟨fid, 0, [], "allocated"⟩) := by
  constructor
  · intro now s fsize fid s' a h0 hok
    cases hl : allocLoop now fid fsize.toNat s fsize 0 [] with
    | done s1 chunks =>
      simp only [allocate_file, hl] at hok
      rcases hok with ⟨-, rfl⟩
      have hsum := allocLoop_sum now fid fsize.toNat s fsize 0 [] s1 chunks h0 hl
      refine ⟨by simpa [sumSizes] using hsum, rfl, ?_⟩
      intro h00
      subst h00
      have hl2 := (allocLoop_nonpos now fid (Int.toNat 0) s 0 0 [] (by omega)).symm.trans hl
      have hch : [] = chunks := ((LoopResult.done.injEq _ _ _ _).mp hl2).2
      rw [← hch]
    | noSpace s1 =>
      simp only [allocate_file, hl] at hok
      exact absurd hok (by simp)
    | fuelOut =>
      simp only [allocate_file, hl] at hok
      exact absurd hok (by simp)
  · intro now s fid
    rfl

/-- C5 (witness): the amended claim applied to a concrete successful
allocation of 4 bytes into one chunk. -/
theorem c5_witness :
    (0 : Int) ≤ 4 ∧ allocate_file "t" stW1 4 "g" = .ok stW1res allocG ∧
    sumSizes allocG.chunks = 4 :=
  ⟨by decide, by decide,
   (c5_sum_of_chunks.1 "t" stW1 4 "g" stW1res allocG (by decide) (by decide)).1⟩

/-- C6 (counterexample): for the spec's concrete drives
A(free 10 GB, total 100 GB) and B(free 5 GB, total 50 GB), both with no
chunks, the scores are equal (9/100 each), so A does NOT score higher
than B; and the tie is broken by registry insertion order, not by drive
id: with B registered first, B is selected even though "A" < "B". -/
theorem c6_counterexample :
    driveScore [] driveA = driveScore [] driveB ∧
    ¬ driveScore [] driveB < driveScore [] driveA ∧
    find_best_drive_for_chunk [driveB, driveA] [] (4 * GiB) = some "B" ∧
    (some "B" : Option String) ≠ some "A" := by
  decide

/-- C6 (amended): drive selection computes
`score = 0.6*(free/total) + 0.3*(1 - used/total) - min(0.3, 0.01*chunks)`
over eligible drives (active, `free_space ≥ chunk_size`) and returns a
drive of maximal score, ties broken by registry insertion order (the
source's stable sort); for the spec's drives A and B the scores tie at
9/100, and whichever of them was registered first is selected. -/
theorem c6_scoring :
    (∀ (drives : List DriveInfo) (chunks : List ChunkInfo) (cs : Int) (i : String),
       find_best_drive_for_chunk drives chunks cs = some i →
       ∃ d ∈ drives, d.id = i ∧ eligible cs d = true ∧
         ∀ d2 ∈ drives, eligible cs d2 = true →
           driveScore chunks d2 ≤ driveScore chunks d) ∧
    driveScore [] driveA = 9 / 100 ∧
    driveScore [] driveB = 9 / 100 ∧
    find_best_drive_for_chunk [driveA, driveB] [] (4 * GiB) = some "A" ∧
    find_best_drive_for_chunk [driveB, driveA] [] (4 * GiB) = some "B" :=
  ⟨fun drives chunks cs i h => find_best_spec drives chunks cs i h,
   by decide, by decide, by decide, by decide⟩

/-- C6 (witness): the argmax property of the amended claim applied at a
concrete input — the selected drive A has a score at least B's. -/
theorem c6_witness : driveScore [] driveB ≤ driveScore [] driveA := by
  rcases c6_scoring.1 [driveA, driveB] [] (4 * GiB) "A" (by decide) with
    ⟨d, hd, hid, -, hmax⟩
  have hB := hmax driveB (by simp) (by decide)
  rcases (by simpa using hd : d = driveA ∨ d = driveB) with rfl | rfl
  · exact hB
  · exact absurd hid (by decide)

/-- C7 (counterexample): `allocate(8GB)` with chunk size 4 GB against
A(free 10 GB) and B(free 5 GB) does NOT place both chunks on A: the
first chunk goes to A (tie at 9/100, A registered first) and the second
goes to B, because after the first reservation A scores only 11/250. -/
theorem c7_counterexample :
    (allocate_file "t0" stAB (8 * GiB) "f").chunkDrives = some ["A", "B"] ∧
    (some ["A", "B"] : Option (List String)) ≠ some ["A", "A"] := by
  decide

/-- C7 (amended): in the spec's 8 GB scenario the first 4 GB chunk is
placed on drive A (a 9/100 score tie with B, broken by insertion
order), after which A's score drops to 11/250 — free ratio 6/100, load
term 6/100, one-chunk penalty 1/100 — which is strictly below B's
9/100, so the second chunk is placed on B, not on A. -/
theorem c7_second_chunk_on_B :
    allocate_file "t0" stAB (8 * GiB) "f" = .ok stABres allocF ∧
    driveScore [chunkF0] driveAmid = 11 / 250 ∧
    driveScore [chunkF0] driveB = 9 / 100 ∧
    driveScore [chunkF0] driveAmid < driveScore [chunkF0] driveB ∧
    driveScore [] driveA = driveScore [] driveB := by
  decide

/-- C8: a migration whose copy step fails before the switch — the
source bytes are missing, or `rsync` reports failure — leaves the chunk
record and every drive's counters (indeed the whole chunk and drive
collections) unchanged, leaves the file store unchanged, and marks the
task `failed`. -/
theorem c8_failed_copy_frame (s : SMState) (fs : FileStore)
    (mid : String) (rsyncOk : Bool) (now : String)
    (mig : MigrationTask) (ch : ChunkInfo)
    (h1 : dictFind? (fun m => m.id) mid s.migrations = some mig)
    (h2 : dictFind? (fun c => c.id) mig.chunk_id s.chunks = some ch)
    (h3 : fsExists fs ch.path = false ∨ rsyncOk = false) :
    (perform_migration s fs mid rsyncOk now).1.chunks = s.chunks ∧
    (perform_migration s fs mid rsyncOk now).1.drives = s.drives ∧
    (perform_migration s fs mid rsyncOk now).2 = fs ∧
    dictFind? (fun m => m.id) mid (perform_migration s fs mid rsyncOk now).1.migrations =
      some { mig with status := "failed", started_at := now, completed_at := some now } := by
  have hkey : perform_migration s fs mid rsyncOk now =
      ({ s with
         migrations := updateFirst (fun m => m.id == mid)
           (fun m => { m with status := "failed", completed_at := some now })
           (updateFirst (fun m => m.id == mid)
             (fun m => { m with status := "migrating", started_at := now })
             s.migrations) }, fs) := by
    rcases h3 with hfe | hrs
    · simp only [perform_migration, h1, h2, hfe]
      rfl
    · by_cases hfe2 : fsExists fs ch.path
      · simp only [perform_migration, h1, h2, hfe2, hrs]
        rfl
      · have hfe2' : fsExists fs ch.path = false := by simpa using hfe2
        simp only [perform_migration, h1, h2, hfe2']
        rfl
  rw [hkey]
  refine ⟨rfl, rfl, rfl, ?_⟩
  rw [dictFind?_updateFirst_id
    (fun m => { m with status := "failed", completed_at := some now }) (fun m => rfl) mid]
  rw [dictFind?_updateFirst_id
    (fun m => { m with status := "migrating", started_at := now }) (fun m => rfl) mid]
  rw [h1]
  rfl

/-- C8 (witness): the frame property at a concrete input whose source
bytes are absent from the file store. -/
theorem c8_witness :
    (perform_migration stC3 [] "m0" true "t1").1.chunks = stC3.chunks ∧
    (perform_migration stC3 [] "m0" true "t1").1.drives = stC3.drives ∧
    (perform_migration stC3 [] "m0" true "t1").2 = [] ∧
    dictFind? (fun m => m.id) "m0" (perform_migration stC3 [] "m0" true "t1").1.migrations =
      some ⟨"m0", "c0", "hdd1", "hdd2", "failed", 0, "t1", some "t1"⟩ :=
  c8_failed_copy_frame stC3 [] "m0" true "t1" taskM0 chunkC0 (by decide) (by decide)
    (Or.inl (by decide))

/-- C9: `scan_drives` is idempotent with respect to a fixed probe
environment — running it twice yields exactly the same manager state as
running it once (the `DriveInfo` record has no timestamp field, so the
records agree on every field) — and it only upserts: every drive id
present before a scan is still present after it.  The hypothesis that
the generated ids `hdd1 … hddN` are pairwise distinct always holds for
the source's `f"hdd{i}"` naming. -/
theorem c9_scan_idempotent_upsert (env : Nat → MountProbe) (s : SMState)
    (h : ((range1 s.max_drives).map hddId).Nodup) :
    scan_drives env (scan_drives env s) = scan_drives env s ∧
    ∀ d ∈ s.drives, ∃ d2 ∈ (scan_drives env s).drives, d2.id = d.id := by
  constructor
  · have hfold := scanFold_idem env (range1 s.max_drives) s.drives h
    simp only [scan_drives]
    rw [hfold]
  · intro d hd
    exact mem_key_scanFold env d.id (range1 s.max_drives) s.drives ⟨d, hd, rfl⟩

/-- C9 (witness): idempotence instantiated at a concrete environment
with one present mount and a stale pre-existing drive record. -/
theorem c9_witness :
    scan_drives envW (scan_drives envW stC9) = scan_drives envW stC9 :=
  (c9_scan_idempotent_upsert envW stC9 (by decide)).1

/-- C10: for every strictly negative `file_size`, `allocate_file` does
not fail: the chunking loop never runs, and the call returns and
records a `StorageAllocation` with the negative `file_size`, an empty
chunk list and status `allocated`, while the drive registry and the
chunk collection are left unchanged. -/
theorem c10_negative_size_accepted (now : String) (s : SMState) (fsize : Int)
    (fid : String) (h : fsize < 0) :
    allocate_file now s fsize fid =
      .ok { s with
            file_allocations := dictInsert (fun a => a.file_id)
              ⟨fid, fsize, [], "allocated"⟩ s.file_allocations }
        ⟨fid, fsize, [], "allocated"⟩ ∧
    ((allocate_file now s fsize fid).state s).drives = s.drives ∧
    ((allocate_file now s fsize fid).state s).chunks = s.chunks := by
  have hloop : allocLoop now fid fsize.toNat s fsize 0 [] = .done s [] :=
    allocLoop_nonpos now fid fsize.toNat s fsize 0 [] (le_of_lt h)
  have hmain : allocate_file now s fsize fid =
      .ok { s with
            file_allocations := dictInsert (fun a => a.file_id)
              ⟨fid, fsize, [], "allocated"⟩ s.file_allocations }
        ⟨fid, fsize, [], "allocated"⟩ := by
    simp only [allocate_file, hloop]
  refine ⟨hmain, ?_, ?_⟩ <;> rw [hmain] <;> rfl

/-- C10 (witness): `allocate(-1, "f")` at a concrete state. -/
theorem c10_witness :
    (-1 : Int) < 0 ∧
    allocate_file "t" stW1 (-1) "f" =
      .ok { stW1 with
            file_allocations := dictInsert (fun a => a.file_id)
              ⟨"f", -1, [], "allocated"⟩ stW1.file_allocations }
        ⟨"f", -1, [], "allocated"⟩ :=
  ⟨by decide, (c10_negative_size_accepted "t" stW1 (-1) "f" (by decide)).1⟩

end BabylonPiles
